import Mathlib

/-!
Verification of the LTIFilter library (LTIFilter.h / LTIFilter.cpp).

The C++ code implements a linear time-invariant discrete-time filter via the
difference equation

  a[0]*y[n] + a[1]*y[n-1] + ... + a[A-1]*y[n-(A-1)] =
  b[0]*x[n] + b[1]*x[n-1] + ... + b[B-1]*x[n-(B-1)]

with fixed-capacity coefficient and history arrays.  Here the filter state is
embedded shallowly: `float` values are modelled as exact rationals `ℚ`, the
coefficient arrays `a[0..A-1]`, `b[0..B-1]` and the history arrays
`y[0..A-1]`, `x[0..B-1]` (only the first A resp. B slots of the fixed-size C
arrays are ever read on a validly constructed filter) are modelled as lists of
those lengths, and the `uint8_t` counters as `Nat` (all quantities stay far
below 256 under the capacity invariants, so no modular wrap-around occurs in
the modelled executions).
-/

namespace LTI

/-- State of an `LTIFilter` object: orders `A` (feedback) and `B`
(feedforward), the warmup counter `frame`, normalized coefficient lists `a`
and `b`, and the most-recent-first history lists `y` (outputs) and `x`
(inputs).  Mirrors the protected members of class `LTIFilter`. -/
structure LTIFilter where
  A : Nat
  B : Nat
  frame : Nat
  a : List ℚ
  b : List ℚ
  y : List ℚ
  x : List ℚ
  deriving Repr, DecidableEq

/-- A validly constructed filter: orders at least 1 and every list holding
exactly as many entries as its order (the observable slots of the fixed-size
C arrays). -/
def LTIFilter.valid (s : LTIFilter) : Prop :=
  1 ≤ s.A ∧ 1 ≤ s.B ∧ s.a.length = s.A ∧ s.b.length = s.B ∧
    s.y.length = s.A ∧ s.x.length = s.B

instance : DecidablePred LTIFilter.valid := fun s =>
  decidable_of_iff
    (1 ≤ s.A ∧ 1 ≤ s.B ∧ s.a.length = s.A ∧ s.b.length = s.B ∧
      s.y.length = s.A ∧ s.x.length = s.B) Iff.rfl

/-- `LTIFilter::reset()`: zeroes the A output-history entries and the B
input-history entries and sets the warmup counter `frame` back to 1;
everything else is untouched. -/
def LTIFilter.reset (s : LTIFilter) : LTIFilter :=
  { s with y := List.replicate s.A 0, x := List.replicate s.B 0, frame := 1 }

/-- The parameterized constructor `LTIFilter::LTIFilter(A, a, B, b)`: copies
the coefficient arrays scaled by `1 / a[0]` and then runs the reset routine.
The source performs no check whatsoever on `a[0]` or on the capacity
bounds. -/
def LTIFilter.construct (A : Nat) (a : List ℚ) (B : Nat) (b : List ℚ) :
    LTIFilter :=
  let scale : ℚ := 1 / a.getD 0 0
  LTIFilter.reset
    { A := A, B := B, frame := 0,
      a := (List.range A).map (fun k => a.getD k 0 * scale),
      b := (List.range B).map (fun k => b.getD k 0 * scale),
      y := [], x := [] }

/-- The default constructor `LTIFilter::LTIFilter()`: assigns only
`A = B = 1`, `a[0] = b[0] = 1.0` and — unlike the parameterized constructor —
never calls `reset()`, so the history arrays and the warmup counter keep
whatever indeterminate values the object's memory held.  The parameter
`junk` stands for that indeterminate pre-construction memory. -/
def LTIFilter.mkDefault (junk : LTIFilter) : LTIFilter :=
  { junk with A := 1, B := 1, a := junk.a.set 0 1, b := junk.b.set 0 1 }

/-- The value `yn` computed inside `LTIFilter::update`: after the history
shift and the insertion of `xn` at the head of the input history, the two
accumulation loops compute
`Σ_{k<B} b[k]·x[k] − Σ_{1≤k<A} a[k]·y[k]`
over the post-shift histories (`y[0]` still holds the stale previous head,
which the second loop never reads since it starts at `k = 1`). -/
def LTIFilter.trueOutput (s : LTIFilter) (xn : ℚ) : ℚ :=
  let xs := xn :: s.x.take (s.B - 1)
  let ys := s.y.headI :: s.y.take (s.A - 1)
  ((List.range s.B).map (fun k => s.b.getD k 0 * xs.getD k 0)).sum -
    ((List.range (s.A - 1)).map (fun i => s.a.getD (i + 1) 0 * ys.getD (i + 1) 0)).sum

/-- `LTIFilter::update(xn)`: shifts both histories right by one, inserts `xn`
at the head of the input history, computes `yn` and stores it at the head of
the output history; while `frame < B` it increments `frame` and returns 0,
otherwise it returns `yn`.  Returns the pair (returned value, new state). -/
def LTIFilter.update (s : LTIFilter) (xn : ℚ) : ℚ × LTIFilter :=
  let yn := s.trueOutput xn
  let s1 := { s with x := xn :: s.x.take (s.B - 1), y := yn :: s.y.take (s.A - 1) }
  if s.frame < s.B then (0, { s1 with frame := s.frame + 1 })
  else (yn, s1)

/-- The free function `conv(x1, N1, x2, N2, y)`: linear convolution of two
arrays (here: lists, with `N1 = x1.length`, `N2 = x2.length`); output entry
`n` accumulates `x1[k] * x2[n-k]` for `k` from `k_min = max(0, n-(N2-1))`
(natural subtraction) up to `k_max = min(N1-1, n)` inclusive. -/
def conv (x1 x2 : List ℚ) : List ℚ :=
  let N1 := x1.length
  let N2 := x2.length
  (List.range (N1 + N2 - 1)).map (fun n =>
    let kmin := n - (N2 - 1)
    let kmax := min (N1 - 1) n
    ((List.range (kmax + 1 - kmin)).map (fun i =>
      x1.getD (kmin + i) 0 * x2.getD (n - (kmin + i)) 0)).sum)

/-- The friend function `operator*(f1, f2)`: convolves the coefficient
arrays of the two filters and hands the results to the standard
constructor. -/
def LTIFilter.mul (f1 f2 : LTIFilter) : LTIFilter :=
  LTIFilter.construct (f1.A + f2.A - 1) (conv f1.a f2.a)
    (f1.B + f2.B - 1) (conv f1.b f2.b)

/-- Feeds a list of input samples to a filter one `update` call at a time;
returns the list of returned values and the final state. -/
def runUpdates (s : LTIFilter) (ins : List ℚ) : List ℚ × LTIFilter :=
  match ins with
  | [] => ([], s)
  | i :: rest =>
      let r := s.update i
      let t := runUpdates r.2 rest
      (r.1 :: t.1, t.2)

/-- Error kinds of the spec's hardened constructor contract (§7). -/
inductive FilterError where
  | invalidCoefficients
  | capacityExceeded
  deriving Repr, DecidableEq

/-- Modelled from the spec: the source constructor performs no validation,
so this is the spec's hardened constructor (§4.1, §7), which fails with
`InvalidCoefficients` when `a[0] = 0` and with `CapacityExceeded` when an
order exceeds the capacity bounds `maxA` / `maxB`, before any state is
built. -/
def constructChecked (maxA maxB : Nat) (A : Nat) (a : List ℚ) (B : Nat)
    (b : List ℚ) : Except FilterError LTIFilter :=
  if a.getD 0 0 = 0 then .error .invalidCoefficients
  else if maxA < A ∨ maxB < B then .error .capacityExceeded
  else .ok (LTIFilter.construct A a B b)

/-- The components of the filter state other than the warmup counter. -/
def LTIFilter.core (s : LTIFilter) :
    Nat × Nat × List ℚ × List ℚ × List ℚ × List ℚ :=
  (s.A, s.B, s.a, s.b, s.y, s.x)

/-! ### Helper lemmas -/

lemma list_sum_map_range (f : Nat → ℚ) (n : Nat) :
    ((List.range n).map f).sum = ∑ i ∈ Finset.range n, f i := by
  induction n with
  | zero => simp
  | succ m ih =>
      rw [List.range_succ, List.map_append, List.sum_append,
        Finset.sum_range_succ, ih]
      simp

lemma getD_map_range (l : List ℚ) :
    (List.range l.length).map (fun n => l.getD n 0) = l := by
  apply List.ext_getElem (by simp)
  intro i h1 h2
  simp [List.getD_eq_getElem _ _ h2, List.getElem?_eq_getElem h2]

lemma map_range_getD_mul (l : List ℚ) (c : ℚ) :
    (List.range l.length).map (fun k => l.getD k 0 * c) =
      l.map (fun v => v * c) := by
  apply List.ext_getElem (by simp)
  intro i h1 h2
  have hi : i < l.length := by simpa using h2
  simp [List.getD_eq_getElem _ _ hi, List.getElem?_eq_getElem hi]

lemma getD_take (l : List ℚ) (m n : Nat) (h : n < m) :
    (l.take m).getD n 0 = l.getD n 0 := by
  induction l generalizing m n with
  | nil => simp
  | cons a t ih =>
      cases m with
      | zero => omega
      | succ m =>
          cases n with
          | zero => simp
          | succ n => simpa using ih m n (by omega)

lemma update_snd_x (s : LTIFilter) (xn : ℚ) :
    (s.update xn).2.x = xn :: s.x.take (s.B - 1) := by
  unfold LTIFilter.update
  split <;> rfl

lemma update_snd_y (s : LTIFilter) (xn : ℚ) :
    (s.update xn).2.y = s.trueOutput xn :: s.y.take (s.A - 1) := by
  unfold LTIFilter.update
  split <;> rfl

lemma update_snd_A (s : LTIFilter) (xn : ℚ) : (s.update xn).2.A = s.A := by
  unfold LTIFilter.update
  split <;> rfl

lemma update_snd_B (s : LTIFilter) (xn : ℚ) : (s.update xn).2.B = s.B := by
  unfold LTIFilter.update
  split <;> rfl

lemma update_snd_a (s : LTIFilter) (xn : ℚ) : (s.update xn).2.a = s.a := by
  unfold LTIFilter.update
  split <;> rfl

lemma update_snd_b (s : LTIFilter) (xn : ℚ) : (s.update xn).2.b = s.b := by
  unfold LTIFilter.update
  split <;> rfl

lemma update_snd_frame (s : LTIFilter) (xn : ℚ) :
    (s.update xn).2.frame = if s.frame < s.B then s.frame + 1 else s.frame := by
  unfold LTIFilter.update
  split <;> simp_all

lemma update_fst (s : LTIFilter) (xn : ℚ) :
    (s.update xn).1 = if s.frame < s.B then 0 else s.trueOutput xn := by
  unfold LTIFilter.update
  split <;> simp_all

lemma update_valid (s : LTIFilter) (xn : ℚ) (h : s.valid) :
    (s.update xn).2.valid := by
  obtain ⟨hA, hB, ha, hb, hy, hx⟩ := h
  refine ⟨?_, ?_, ?_, ?_, ?_, ?_⟩
  · rw [update_snd_A]; exact hA
  · rw [update_snd_B]; exact hB
  · rw [update_snd_a, update_snd_A]; exact ha
  · rw [update_snd_b, update_snd_B]; exact hb
  · rw [update_snd_y, update_snd_A]
    simp [List.length_take, hy]
    omega
  · rw [update_snd_x, update_snd_B]
    simp [List.length_take, hx]
    omega

lemma trueOutput_congr (s t : LTIFilter) (xn : ℚ) (hA : s.A = t.A)
    (hB : s.B = t.B) (ha : s.a = t.a) (hb : s.b = t.b) (hy : s.y = t.y)
    (hx : s.x = t.x) : s.trueOutput xn = t.trueOutput xn := by
  unfold LTIFilter.trueOutput
  rw [hA, hB, ha, hb, hy, hx]

lemma core_update_congr (s t : LTIFilter) (xn : ℚ) (h : s.core = t.core) :
    ((s.update xn).2).core = ((t.update xn).2).core := by
  obtain ⟨hA, hB, ha, hb, hy, hx⟩ :
      s.A = t.A ∧ s.B = t.B ∧ s.a = t.a ∧ s.b = t.b ∧ s.y = t.y ∧ s.x = t.x := by
    simpa [LTIFilter.core, Prod.ext_iff] using h
  have hout : s.trueOutput xn = t.trueOutput xn :=
    trueOutput_congr s t xn hA hB ha hb hy hx
  simp [LTIFilter.core, Prod.ext_iff, update_snd_A, update_snd_B, update_snd_a,
    update_snd_b, update_snd_x, update_snd_y, hA, hB, ha, hb, hy, hx, hout]

lemma runUpdates_nil (s : LTIFilter) : runUpdates s [] = ([], s) := rfl

lemma runUpdates_cons (s : LTIFilter) (i : ℚ) (rest : List ℚ) :
    runUpdates s (i :: rest) =
      ((s.update i).1 :: (runUpdates (s.update i).2 rest).1,
        (runUpdates (s.update i).2 rest).2) := rfl

lemma runUpdates_valid (s : LTIFilter) (ins : List ℚ) (h : s.valid) :
    (runUpdates s ins).2.valid := by
  induction ins generalizing s with
  | nil => exact h
  | cons i rest ih => exact ih _ (update_valid s i h)

lemma runUpdates_snd_B (s : LTIFilter) (ins : List ℚ) :
    (runUpdates s ins).2.B = s.B := by
  induction ins generalizing s with
  | nil => rfl
  | cons i rest ih => rw [runUpdates_cons]; simpa [update_snd_B] using ih (s.update i).2

lemma trueOutput_formula (s : LTIFilter) (xn : ℚ) :
    s.trueOutput xn =
      (∑ k ∈ Finset.range s.B, s.b.getD k 0 * (xn :: s.x).getD k 0) -
        ∑ k ∈ Finset.Ico 1 s.A, s.a.getD k 0 * s.y.getD (k - 1) 0 := by
  unfold LTIFilter.trueOutput
  dsimp only
  rw [list_sum_map_range, list_sum_map_range]
  congr 1
  · apply Finset.sum_congr rfl
    intro k hk
    have hkB : k < s.B := Finset.mem_range.mp hk
    congr 1
    cases k with
    | zero => rfl
    | succ j =>
        simp only [List.getD_cons_succ]
        exact getD_take s.x (s.B - 1) j (by omega)
  · rw [Finset.sum_Ico_eq_sum_range]
    apply Finset.sum_congr rfl
    intro i hi
    have hiA : i < s.A - 1 := Finset.mem_range.mp hi
    have h1 : (1 : Nat) + i - 1 = i := by omega
    have h2 : (1 : Nat) + i = i + 1 := by omega
    rw [h1, h2]
    simp only [List.getD_cons_succ]
    rw [getD_take s.y (s.A - 1) i hiA]

lemma gating_general (ins : List ℚ) :
    ∀ (s : LTIFilter) (c : Nat), s.valid → s.frame = min (c + 1) s.B →
      ((runUpdates s ins).2.frame = min (c + ins.length + 1) s.B) ∧
      ∀ i, i < ins.length →
        (runUpdates s ins).1.getD i 0 =
          if c + i + 1 < s.B then 0
          else ((runUpdates s (ins.take i)).2).trueOutput (ins.getD i 0) := by
  induction ins with
  | nil =>
      intro s c hv hf
      refine ⟨by simpa using hf, ?_⟩
      intro i hi
      simp at hi
  | cons v rest ih =>
      intro s c hv hf
      have hB : 1 ≤ s.B := hv.2.1
      have hB1 : (s.update v).2.B = s.B := update_snd_B s v
      have hframe1 : (s.update v).2.frame = min (c + 1 + 1) (s.update v).2.B := by
        rw [hB1, update_snd_frame, hf]
        split <;> omega
      have ihs := ih (s.update v).2 (c + 1) (update_valid s v hv) hframe1
      constructor
      · rw [runUpdates_cons]
        have := ihs.1
        rw [hB1] at this
        rw [this]
        have he : c + 1 + rest.length + 1 = c + (v :: rest).length + 1 := by
          simp
          omega
        rw [he]
      · intro i hi
        cases i with
        | zero =>
            rw [runUpdates_cons]
            simp only [List.getD_cons_zero]
            rw [update_fst]
            rcases Nat.lt_or_ge (c + 1) s.B with h | h
            · rw [if_pos (by omega), if_pos (by omega)]
            · rw [if_neg (by omega), if_neg (by omega)]
              simp [runUpdates_nil]
        | succ j =>
            have hj : j < rest.length := by
              simp at hi
              omega
            simp only [runUpdates_cons, List.take_succ_cons, List.getD_cons_succ]
            rw [ihs.2 j hj, hB1]
            have he : c + 1 + j + 1 = c + (j + 1) + 1 := by omega
            rw [he]

lemma getD_map_range_lt (f : Nat → ℚ) (n k : Nat) (h : k < n) :
    ((List.range n).map f).getD k 0 = f k := by
  have hlen : k < ((List.range n).map f).length := by simpa using h
  rw [List.getD_eq_getElem _ _ hlen]
  simp

lemma construct_a (A : Nat) (a : List ℚ) (B : Nat) (b : List ℚ) :
    (LTIFilter.construct A a B b).a =
      (List.range A).map (fun k => a.getD k 0 * (1 / a.getD 0 0)) := rfl

lemma construct_b (A : Nat) (a : List ℚ) (B : Nat) (b : List ℚ) :
    (LTIFilter.construct A a B b).b =
      (List.range B).map (fun k => b.getD k 0 * (1 / a.getD 0 0)) := rfl

lemma conv_length (x1 x2 : List ℚ) :
    (conv x1 x2).length = x1.length + x2.length - 1 := by
  unfold conv
  dsimp only
  rw [List.length_map, List.length_range]

lemma run_core_congr (ins : List ℚ) :
    ∀ s t : LTIFilter, s.core = t.core →
      ((runUpdates s ins).2).core = ((runUpdates t ins).2).core := by
  induction ins with
  | nil => intro s t h; simpa [runUpdates_nil] using h
  | cons v rest ih =>
      intro s t h
      simp only [runUpdates_cons]
      exact ih _ _ (core_update_congr s t v h)

/-! ### Claim theorems -/

/-- C1: for every validly constructed filter, `update(xn)` shifts the input
history right by one inserting `xn` at its head, shifts the output history
right by one discarding the oldest entry, computes
`yn = Σ_{k=0..B-1} b[k]·x[k] − Σ_{k=1..A-1} a[k]·y[k]` over the post-shift
histories (`a[0]` is not used in the subtraction), and stores `yn` at the
head of the output history; both histories keep their lengths B and A. -/
theorem update_step_spec (s : LTIFilter) (xn : ℚ) (hv : s.valid) :
    (s.update xn).2.x = xn :: s.x.take (s.B - 1) ∧
    (s.update xn).2.x.length = s.B ∧
    (s.update xn).2.y.length = s.A ∧
    (s.update xn).2.y =
      ((∑ k ∈ Finset.range s.B, s.b.getD k 0 * (xn :: s.x).getD k 0) -
          ∑ k ∈ Finset.Ico 1 s.A, s.a.getD k 0 * s.y.getD (k - 1) 0) ::
        s.y.take (s.A - 1) := by
  have hvd := update_valid s xn hv
  refine ⟨update_snd_x s xn, ?_, ?_, ?_⟩
  · have hx := hvd.2.2.2.2.2
    rw [update_snd_B] at hx
    exact hx
  · have hy := hvd.2.2.2.2.1
    rw [update_snd_A] at hy
    exact hy
  · rw [update_snd_y, trueOutput_formula]

def sampleFilter1 : LTIFilter := LTIFilter.construct 2 [2, 4] 2 [1, 3]

theorem update_step_spec_witness :
    sampleFilter1.valid ∧
      (sampleFilter1.update 5).2.x = 5 :: sampleFilter1.x.take (sampleFilter1.B - 1) :=
  ⟨by decide, (update_step_spec sampleFilter1 5 (by decide)).1⟩

/-- C5: after `Construct(A, a, B, b)` with `a[0] ≠ 0`, every stored
coefficient equals the corresponding input coefficient divided by the
original `a[0]` (so the stored `a[0]` is 1), and `update` and `reset` leave
the coefficients of any filter unchanged, preserving the normalization
invariant. -/
theorem construct_normalizes (A B : Nat) (a b : List ℚ) (hA : 1 ≤ A)
    (h0 : a.getD 0 0 ≠ 0) :
    (LTIFilter.construct A a B b).a.getD 0 0 = 1 ∧
    (∀ k, k < A →
      (LTIFilter.construct A a B b).a.getD k 0 = a.getD k 0 / a.getD 0 0) ∧
    (∀ k, k < B →
      (LTIFilter.construct A a B b).b.getD k 0 = b.getD k 0 / a.getD 0 0) ∧
    (∀ (t : LTIFilter) (xn : ℚ),
      (t.update xn).2.a = t.a ∧ (t.update xn).2.b = t.b ∧
        t.reset.a = t.a ∧ t.reset.b = t.b) := by
  refine ⟨?_, ?_, ?_, ?_⟩
  · rw [construct_a, getD_map_range_lt _ _ _ (by omega : 0 < A), mul_one_div,
      div_self h0]
  · intro k hk
    rw [construct_a, getD_map_range_lt _ _ _ hk, mul_one_div]
  · intro k hk
    rw [construct_b, getD_map_range_lt _ _ _ hk, mul_one_div]
  · intro t xn
    exact ⟨update_snd_a t xn, update_snd_b t xn, rfl, rfl⟩

theorem construct_normalizes_witness :
    (1 ≤ 2 ∧ ([2, 4] : List ℚ).getD 0 0 ≠ 0) ∧
      (LTIFilter.construct 2 [2, 4] 1 [6]).a.getD 0 0 = 1 :=
  ⟨⟨by decide, by decide⟩,
    (construct_normalizes 2 1 [2, 4] [6] (by decide) (by decide)).1⟩

/-- Indeterminate pre-construction memory used to exhibit the behavior of the
default constructor, which never initializes `frame`, `x` or `y`. -/
def junkMemory1 : LTIFilter :=
  { A := 3, B := 2, frame := 0, a := [5, 5, 5], b := [5, 5],
    y := [9, 9, 9], x := [7, 7] }

/-- C6 (code bug): the default constructor assigns `A = B = 1`,
`a[0] = b[0] = 1.0` but — contrary to the claim and unlike the parameterized
constructor — never runs the reset routine, so the history entries and the
warmup counter keep the indeterminate values of the object's memory:
here the warmup counter stays 0 (not 1) and `y[0]` stays 9 (not 0). -/
theorem default_ctor_skips_reset :
    (LTIFilter.mkDefault junkMemory1).A = 1 ∧
    (LTIFilter.mkDefault junkMemory1).B = 1 ∧
    (LTIFilter.mkDefault junkMemory1).a.getD 0 0 = 1 ∧
    (LTIFilter.mkDefault junkMemory1).b.getD 0 0 = 1 ∧
    (LTIFilter.mkDefault junkMemory1).frame = 0 ∧
    (LTIFilter.mkDefault junkMemory1).frame ≠ 1 ∧
    (LTIFilter.mkDefault junkMemory1).y.getD 0 0 = 9 := by
  decide

/-- Indeterminate pre-construction memory whose stale warmup counter is 0. -/
def junkMemory2 : LTIFilter :=
  { A := 2, B := 3, frame := 0, a := [4, 4], b := [4, 4, 4],
    y := [8, 8], x := [6, 6, 6] }

/-- C8 (code bug): on a default-constructed (identity) filter the first
`update(5)` computes `yn = 5` and stores it in the output history, but since
the default constructor never initialized the warmup counter, a stale value
0 (< B = 1) makes the call return 0.0 instead of `xn = 5`. -/
theorem identity_first_update_gated :
    ((LTIFilter.mkDefault junkMemory2).update 5).1 = 0 ∧
    ((LTIFilter.mkDefault junkMemory2).update 5).2.y.getD 0 0 = 5 ∧
    (0 : ℚ) ≠ 5 := by
  norm_num [junkMemory2, LTIFilter.mkDefault, LTIFilter.update,
    LTIFilter.trueOutput, List.range_succ]

/-- C7 (code bug): the spec's hardened contract rejects `a[0] = 0` with
`InvalidCoefficients` and over-capacity orders with `CapacityExceeded`
before building any state, but the source constructor performs no validation
at all: called with `a[0] = 0` it divides by zero and silently returns a
filter whose stored `a[0]` is not 1 (NaN in IEEE arithmetic, 0 in this exact
model), its history already initialized. -/
theorem construct_unvalidated_divergence :
    constructChecked 8 8 1 [0] 1 [1] =
      Except.error FilterError.invalidCoefficients ∧
    (LTIFilter.construct 1 [0] 1 [1]).a.getD 0 0 ≠ 1 ∧
    (LTIFilter.construct 1 [0] 1 [1]).y = [0] ∧
    constructChecked 8 8 9 [1] 1 [1] =
      Except.error FilterError.capacityExceeded := by
  refine ⟨?_, ?_, ?_, ?_⟩
  · norm_num [constructChecked]
  · norm_num [LTIFilter.construct, LTIFilter.reset, List.range_succ]
  · rfl
  · norm_num [constructChecked]

/-- C9: `reset()` replaces the output history by A zeros and the input
history by B zeros, sets the warmup counter back to 1, and leaves the
orders and both coefficient lists unchanged — for every filter state. -/
theorem reset_spec (s : LTIFilter) :
    s.reset.y = List.replicate s.A 0 ∧ s.reset.x = List.replicate s.B 0 ∧
    s.reset.frame = 1 ∧ s.reset.A = s.A ∧ s.reset.B = s.B ∧
    s.reset.a = s.a ∧ s.reset.b = s.b :=
  ⟨rfl, rfl, rfl, rfl, rfl, rfl, rfl⟩

/-- C10: during warmup (`frame < B`) `update` returns 0.0 but still stores
the true computed `yn` at the head of the output history, and the evolution
of every component other than the warmup counter is independent of the
warmup counter over any call sequence: gating affects only the returned
value, never the stored recurrence state. -/
theorem gating_state_invariance (s : LTIFilter) (xn : ℚ) (f : Nat)
    (ins : List ℚ) (h : s.frame < s.B) :
    (s.update xn).1 = 0 ∧
    (s.update xn).2.y.headI = s.trueOutput xn ∧
    ((runUpdates { s with frame := f } ins).2).core =
      ((runUpdates s ins).2).core := by
  refine ⟨?_, ?_, ?_⟩
  · rw [update_fst, if_pos h]
  · rw [update_snd_y]
    rfl
  · exact run_core_congr ins { s with frame := f } s rfl

def sampleFilter10 : LTIFilter := LTIFilter.construct 1 [1] 2 [1, 1]

theorem gating_state_invariance_witness :
    sampleFilter10.frame < sampleFilter10.B ∧ (sampleFilter10.update 4).1 = 0 :=
  ⟨by decide, (gating_state_invariance sampleFilter10 4 9 [3] (by decide)).1⟩

/-- C2: starting from the post-construction/post-reset state (warmup counter
1), each of the first B−1 calls to `update` returns exactly 0.0 regardless
of input, the B-th and every later call returns the true computed `yn`, and
after i calls the warmup counter equals `min (i+1) B` — so it is incremented
by each gated call and never incremented past B. -/
theorem update_warmup_gating (s : LTIFilter) (ins : List ℚ) (hv : s.valid)
    (hf : s.frame = 1) :
    (∀ i, i < ins.length → i + 1 < s.B →
      (runUpdates s ins).1.getD i 0 = 0) ∧
    (∀ i, i < ins.length → s.B ≤ i + 1 →
      (runUpdates s ins).1.getD i 0 =
        ((runUpdates s (ins.take i)).2).trueOutput (ins.getD i 0)) ∧
    (∀ i, i ≤ ins.length →
      (runUpdates s (ins.take i)).2.frame = min (i + 1) s.B) := by
  have hB : 1 ≤ s.B := hv.2.1
  have hf0 : s.frame = min (0 + 1) s.B := by rw [hf]; omega
  have hg := gating_general ins s 0 hv hf0
  refine ⟨?_, ?_, ?_⟩
  · intro i hi hlt
    rw [hg.2 i hi, if_pos (by omega)]
  · intro i hi hge
    rw [hg.2 i hi, if_neg (by omega)]
  · intro i hi
    have hgt := (gating_general (ins.take i) s 0 hv hf0).1
    have hlen : (ins.take i).length = i := by rw [List.length_take]; omega
    rw [hgt, hlen]
    omega

def sampleFilter2 : LTIFilter := LTIFilter.construct 2 [1, 1] 2 [1, 1]

theorem update_warmup_gating_witness :
    (sampleFilter2.valid ∧ sampleFilter2.frame = 1) ∧
      (runUpdates sampleFilter2 [5, 3]).1.getD 0 0 = 0 :=
  ⟨⟨by decide, rfl⟩,
    (update_warmup_gating sampleFilter2 [5, 3] (by decide) rfl).1 0 (by decide)
      (by decide)⟩

/-- C3: `operator*` produces exactly the filter built by the standard
constructor (which re-normalizes by the new `a[0]`) from feedback order
`A1 + A2 − 1`, feedforward order `B1 + B2 − 1`, and the linear convolutions
of the two filters' `a` and `b` coefficient arrays. -/
theorem convolve_filters_spec (f1 f2 : LTIFilter) (h1 : f1.valid)
    (h2 : f2.valid) :
    f1.mul f2 =
      LTIFilter.construct (f1.A + f2.A - 1) (conv f1.a f2.a)
        (f1.B + f2.B - 1) (conv f1.b f2.b) ∧
    (f1.mul f2).A = f1.A + f2.A - 1 ∧
    (f1.mul f2).B = f1.B + f2.B - 1 ∧
    (f1.mul f2).a =
      (conv f1.a f2.a).map (fun v => v * (1 / (conv f1.a f2.a).getD 0 0)) ∧
    (f1.mul f2).b =
      (conv f1.b f2.b).map (fun v => v * (1 / (conv f1.a f2.a).getD 0 0)) := by
  have hconva : (conv f1.a f2.a).length = f1.A + f2.A - 1 := by
    rw [conv_length, h1.2.2.1, h2.2.2.1]
  have hconvb : (conv f1.b f2.b).length = f1.B + f2.B - 1 := by
    rw [conv_length, h1.2.2.2.1, h2.2.2.2.1]
  refine ⟨rfl, rfl, rfl, ?_, ?_⟩
  · rw [show (f1.mul f2).a =
        (List.range (f1.A + f2.A - 1)).map
          (fun k => (conv f1.a f2.a).getD k 0 * (1 / (conv f1.a f2.a).getD 0 0))
      from rfl]
    rw [← hconva, map_range_getD_mul]
  · rw [show (f1.mul f2).b =
        (List.range (f1.B + f2.B - 1)).map
          (fun k => (conv f1.b f2.b).getD k 0 * (1 / (conv f1.a f2.a).getD 0 0))
      from rfl]
    rw [← hconvb, map_range_getD_mul]

def sampleFilter3a : LTIFilter := LTIFilter.construct 1 [1] 1 [2]

def sampleFilter3b : LTIFilter := LTIFilter.construct 2 [1, 1] 1 [3]

theorem convolve_filters_spec_witness :
    (sampleFilter3a.valid ∧ sampleFilter3b.valid) ∧
      (sampleFilter3a.mul sampleFilter3b).A =
        sampleFilter3a.A + sampleFilter3b.A - 1 :=
  ⟨⟨by decide, by decide⟩,
    (convolve_filters_spec sampleFilter3a sampleFilter3b (by decide)
      (by decide)).2.1⟩

/-- C4: for input lists of lengths N1 ≥ 1 and N2 ≥ 1, `conv` yields a list
of length N1+N2−1 whose entry at each n is
`Σ_{k = max(0, n−(N2−1))}^{min(N1−1, n)} x1[k]·x2[n−k]` (the lower bound is
natural-number subtraction, which is exactly `max(0, ·)`); convolving any
list with `[1.0]` returns it unchanged. -/
theorem conv_spec (x1 x2 : List ℚ) (h1 : 1 ≤ x1.length)
    (h2 : 1 ≤ x2.length) :
    (conv x1 x2).length = x1.length + x2.length - 1 ∧
    (∀ n, n < x1.length + x2.length - 1 →
      (conv x1 x2).getD n 0 =
        ∑ k ∈ Finset.Icc (n - (x2.length - 1)) (min (x1.length - 1) n),
          x1.getD k 0 * x2.getD (n - k) 0) ∧
    conv x1 [1] = x1 := by
  refine ⟨conv_length x1 x2, ?_, ?_⟩
  · intro n hn
    unfold conv
    dsimp only
    rw [getD_map_range_lt _ _ _ hn]
    rw [list_sum_map_range, ← Nat.Ico_succ_right, Finset.sum_Ico_eq_sum_range]
  · have hmap : conv x1 [1] = (List.range x1.length).map (fun n => x1.getD n 0) := by
      unfold conv
      dsimp only
      have hN : x1.length + ([1] : List ℚ).length - 1 = x1.length := by
        simp
      rw [hN]
      apply List.map_congr_left
      intro n hn
      have hn1 : n < x1.length := List.mem_range.mp hn
      have hkmin : n - (([1] : List ℚ).length - 1) = n := by simp
      have hkmax : min (x1.length - 1) n = n := by omega
      rw [hkmin, hkmax]
      have hone : n + 1 - n = 1 := by omega
      rw [hone]
      rw [show List.range 1 = [0] from rfl]
      simp
    rw [hmap, getD_map_range]

theorem conv_spec_witness :
    (1 ≤ ([4, 7] : List ℚ).length ∧ 1 ≤ ([1] : List ℚ).length) ∧
      conv [4, 7] [1] = [4, 7] :=
  ⟨⟨by decide, by decide⟩, (conv_spec [4, 7] [1] (by decide) (by decide)).2.2⟩

end LTI
